/- Verification development for the phatsapi repository: a shallow embedding of
the route-registration wrapper (mergeSchemas, handleZodError, handleRequest,
createRouteConfig, PhatsAPI.addMethod and the verb methods) together with
theorems settling the frozen claims about it. -/
import Mathlib

set_option autoImplicit false

/-- JSON values, as produced by the JSON body parser and by handlers. -/
inductive JsonValue where
  | str (s : String)
  | num (n : Int)
  | bool (b : Bool)
  | null
  | obj (fields : List (String × JsonValue))
  | arr (elems : List JsonValue)

/-- A JavaScript object: an ordered association list with (intended) unique keys. -/
abbrev JsObj := List (String × JsonValue)

/-- Property lookup on an association list (first matching key wins, as in a
JavaScript object, whose keys are unique). -/
def getK {α : Type} (o : List (String × α)) (k : String) : Option α :=
  match o with
  | [] => none
  | p :: rest => if p.fst = k then some p.snd else getK rest k

/-- Property assignment on an association list: replace the entry in place when
the key is present, append it otherwise.  This is JavaScript object assignment,
which preserves insertion order. -/
def setK {α : Type} (o : List (String × α)) (k : String) (v : α) : List (String × α) :=
  match o with
  | [] => [(k, v)]
  | p :: rest => if p.fst = k then (k, v) :: rest else p :: setK rest k v

/-- Object spread: the entries of the second object are assigned over the first,
left to right, so later keys override earlier ones.  This models the spread
syntax used in mergeSchemas and handleRequest. -/
def spreadK {α : Type} (a b : List (String × α)) : List (String × α) :=
  b.foldl (fun acc p => setK acc p.fst p.snd) a

/-- Type name of a JSON value, as it appears in Zod invalid-type messages. -/
def typeName : JsonValue → String
  | .str _ => "string"
  | .num _ => "number"
  | .bool _ => "boolean"
  | .null => "null"
  | .obj _ => "object"
  | .arr _ => "array"

/-- Spreading an arbitrary JSON value into an object, as JavaScript does for
spread of a non-object: objects contribute their entries, arrays and strings
contribute index-keyed entries, and primitives contribute nothing. -/
def spreadJson (o : JsObj) (v : JsonValue) : JsObj :=
  match v with
  | .obj fields => spreadK o fields
  | .arr elems => spreadK o (elems.enum.map fun p => (toString p.fst, p.snd))
  | .str s => spreadK o (s.toList.enum.map fun p => (toString p.fst, JsonValue.str (String.singleton p.snd)))
  | _ => o

/-- A single Zod validation issue: a path into the value and a message. -/
structure ZodIssue where
  path : List String
  message : String

/-- Field schemas of the Zod fragment the repository uses: primitive type
checks, optional wrappers, and a refinement whose callback raises a non-Zod
exception (modelling z.refine or z.transform callbacks that throw). -/
inductive FieldSchema where
  | str
  | num
  | bool
  | optional (inner : FieldSchema)
  | refineThrow (inner : FieldSchema)

/-- Outcome of parsing one field: a validated value (none when an optional key
is absent), a list of Zod issues, or a non-Zod exception. -/
inductive FieldOutcome where
  | ok (v : Option JsonValue)
  | issues (is : List ZodIssue)
  | thrown

/-- Parsing a single field schema against the value found at its key. -/
def parseField : FieldSchema → Option JsonValue → FieldOutcome
  | .optional inner, some v => parseField inner (some v)
  | .optional _, none => .ok none
  | .refineThrow inner, mv =>
    match parseField inner mv with
    | .ok _ => .thrown
    | .issues is => .issues is
    | .thrown => .thrown
  | .str, none => .issues [⟨[], "Required"⟩]
  | .num, none => .issues [⟨[], "Required"⟩]
  | .bool, none => .issues [⟨[], "Required"⟩]
  | .str, some v =>
    match v with
    | .str _ => .ok (some v)
    | _ => .issues [⟨[], "Expected string, received " ++ typeName v⟩]
  | .num, some v =>
    match v with
    | .num _ => .ok (some v)
    | _ => .issues [⟨[], "Expected number, received " ++ typeName v⟩]
  | .bool, some v =>
    match v with
    | .bool _ => .ok (some v)
    | _ => .issues [⟨[], "Expected boolean, received " ++ typeName v⟩]

/-- The shape of a z.object schema: field schemas keyed by property name. -/
abbrev Shape := List (String × FieldSchema)

/-- Outcome of parsing a whole object: the validated object (unknown keys
stripped, as Zod does by default), accumulated Zod issues, or a non-Zod
exception raised by a refinement. -/
inductive ParseOutcome where
  | ok (v : JsObj)
  | zodError (is : List ZodIssue)
  | thrown

/-- Prefixes a key onto the paths of the issues coming from one field. -/
def atKey (k : String) (is : List ZodIssue) : List ZodIssue :=
  is.map fun i => ⟨k :: i.path, i.message⟩

/-- Parsing an object schema shape against an input object: fields are checked
in declaration order, issues accumulate across fields, and a raised exception
aborts the parse. -/
def parseFields : Shape → JsObj → ParseOutcome
  | [], _ => .ok []
  | (k, f) :: rest, input =>
    match parseField f (getK input k) with
    | .thrown => .thrown
    | .ok mv =>
      match parseFields rest input with
      | .thrown => .thrown
      | .ok fs =>
        .ok (match mv with
          | some v => (k, v) :: fs
          | none => fs)
      | .zodError is => .zodError is
    | .issues is1 =>
      match parseFields rest input with
      | .thrown => .thrown
      | .ok _ => .zodError (atKey k is1)
      | .zodError is2 => .zodError (atKey k is1 ++ is2)

/-- Parsing an object schema against an arbitrary JSON value, as
responseSchema.parse does: non-objects fail with an invalid-type issue. -/
def parseValue (sh : Shape) : JsonValue → ParseOutcome
  | .obj fields => parseFields sh fields
  | v => .zodError [⟨[], "Expected object, received " ++ typeName v⟩]

/-- A Zod schema as the wrapper sees it: either a z.object with a shape, or
some other Zod schema (whose shape mergeSchemas replaces with the empty one). -/
inductive ZodSchema where
  | object (shape : Shape)
  | nonObject

/-- The CompoundRequest type of the source: optional param, query and json
schemas. -/
structure CompoundRequest where
  param : Option ZodSchema
  query : Option ZodSchema
  json : Option ZodSchema

/-- The shape of an optional schema, exactly as mergeSchemas extracts it: the
shape when the schema is a z.object, and the empty shape otherwise. -/
def shapeOfZ : Option ZodSchema → Shape
  | some (.object sh) => sh
  | some .nonObject => []
  | none => []

/-- mergeSchemas from the source: spread the param, query and json shapes into
one object shape, later shapes overriding earlier ones. -/
def mergeSchemas (request : CompoundRequest) : Shape :=
  spreadK (spreadK (spreadK [] (shapeOfZ request.param)) (shapeOfZ request.query)) (shapeOfZ request.json)

/-- An HTTP response produced by the wrapper: a status code and a JSON body. -/
structure HttpResponse where
  status : Nat
  body : JsonValue

/-- Outcome of awaiting the user-supplied handler: a resolved JSON value or a
raised exception. -/
inductive HandlerOutcome where
  | ok (v : JsonValue)
  | throws

/-- A user-supplied route handler, applied to the validated merged request. -/
abbrev Handler := JsObj → HandlerOutcome

/-- An exception escaping the route handler pipeline uncaught. -/
inductive Uncaught where
  | fromHandler
  | fromResponseParse (is : List ZodIssue)
  | fromResponseThrown

/-- Result of running the route handler pipeline on one request: either a
response the wrapper emits, or an exception it lets propagate. -/
inductive HandlerResult where
  | response (r : HttpResponse)
  | uncaught (e : Uncaught)

/-- True exactly when the pipeline produced a response of its own. -/
def isResponse : HandlerResult → Bool
  | .response _ => true
  | .uncaught _ => false

/-- handleZodError from the source: a 400 response whose body lists, for each
issue, the path joined with a dot as the field and the message of the issue. -/
def handleZodError (is : List ZodIssue) : HttpResponse :=
  ⟨400, .obj [("errors", .arr (is.map fun i =>
    .obj [("field", .str (String.intercalate "." i.path)), ("message", .str i.message)]))]⟩

/-- The generic 500 response the catch block returns for non-Zod errors. -/
def internalServerError : HttpResponse :=
  ⟨500, .obj [("error", .str "Internal Server Error")]⟩

/-- The tail of handleRequest after validation succeeded: await the handler,
then return the response-schema-parsed result as JSON with status 200.  Both
steps sit outside the try block of the source, so an exception from the handler
or a failure of responseSchema.parse propagates uncaught. -/
def respond (responseShape : Shape) (handler : Handler) (request : JsObj) : HandlerResult :=
  match handler request with
  | .throws => .uncaught .fromHandler
  | .ok v =>
    match parseValue responseShape v with
    | .ok fields => .response ⟨200, .obj fields⟩
    | .zodError is => .uncaught (.fromResponseParse is)
    | .thrown => .uncaught .fromResponseThrown

/-- The parts of an incoming request as Hono hands them to handleRequest:
path parameters and query parameters are string-valued records, and the body is
the parsed JSON value, or none when the body is absent or fails to parse. -/
structure HonoRequest where
  params : List (String × String)
  query : List (String × String)
  jsonBody : Option JsonValue

/-- String-valued records injected into JSON objects. -/
def strEntries (l : List (String × String)) : JsObj :=
  l.map fun p => (p.fst, JsonValue.str p.snd)

/-- The merged input object of handleRequest: path parameters, then query
parameters, then the JSON body (an empty object when the body was absent or
unparseable, because the parse failure is swallowed by a catch), spread into
one object so that later sources override earlier ones. -/
def mergedInput (c : HonoRequest) : JsObj :=
  let params := strEntries c.params
  let query := strEntries c.query
  let json := match c.jsonBody with
    | some v => v
    | none => .obj []
  spreadJson (spreadK (spreadK [] params) query) json

/-- handleRequest from the source: build the merged schema, parse the merged
input inside a try block that maps a ZodError to handleZodError and any other
exception to the generic 500, and on success run the handler and the response
parse outside the try block. -/
def handleRequest (c : HonoRequest) (requestSchema : CompoundRequest)
    (responseShape : Shape) (handler : Handler) : HandlerResult :=
  match parseFields (mergeSchemas requestSchema) (mergedInput c) with
  | .zodError is => .response (handleZodError is)
  | .thrown => .response internalServerError
  | .ok request => respond responseShape handler request

/-- The describeRoute configuration the wrapper builds: a description and the
documented responses as pairs of status code and description. -/
structure RouteConfig where
  description : String
  responses : List (Nat × String)

/-- createRouteConfig from the source: documents 200 with the supplied response
description, 400 as a bad request, and 500 as an internal server error. -/
def createRouteConfig (description : String) (responseDescription : String) : RouteConfig :=
  ⟨description, [(200, responseDescription), (400, "Bad request"), (500, "Internal server error")]⟩

/-- The two locations a single schema can be assigned to by addMethod. -/
inductive SchemaLocation where
  | query
  | json

/-- The request-schema argument of the overloaded verb methods: a single Zod
schema or a CompoundRequest of split schemas. -/
inductive RequestSchemaArg where
  | single (s : ZodSchema)
  | compound (c : CompoundRequest)

/-- The CompoundRequest addMethod computes: a single schema is placed at the
default location for the verb, and a compound request is passed through. -/
def toCompound (loc : SchemaLocation) : RequestSchemaArg → CompoundRequest
  | .single s =>
    match loc with
    | .query => ⟨none, some s, none⟩
    | .json => ⟨none, none, some s⟩
  | .compound c => c

/-- The default z.object of addMethod for an absent part schema. -/
def orEmptyObject : Option ZodSchema → ZodSchema
  | some s => s
  | none => .object []

/-- One registered API route: the verb, path, documentation configuration,
compound request schema handed to handleRequest, the three part schemas handed
to the validator middlewares, the response shape, and the handler. -/
structure Route where
  method : String
  path : String
  config : RouteConfig
  request : CompoundRequest
  paramValidator : ZodSchema
  queryValidator : ZodSchema
  jsonValidator : ZodSchema
  responseShape : Shape
  handler : Handler

/-- The closure addMethod registers as the final middleware: it calls
handleRequest with the compound request, response schema and handler of the
route. -/
def Route.handle (rt : Route) (c : HonoRequest) : HandlerResult :=
  handleRequest c rt.request rt.responseShape rt.handler

/-- An entry in the underlying Hono routing table: either an API route added
through addMethod, or the documentation endpoint added by the constructor. -/
inductive RegisteredRoute where
  | api (r : Route)
  | docs (method : String) (path : String)

/-- The options the constructor passes to the OpenAPI generator. -/
structure OpenApiSpecsOptions where
  title : String
  version : String
  description : String

/-- The PhatsAPI wrapper state: the routes registered on the Hono instance. -/
structure PhatsAPI where
  routes : List RegisteredRoute

/-- The PhatsAPI constructor: a fresh Hono instance on which exactly one route
is registered, the documentation endpoint at GET /openapi. -/
def PhatsAPI.make (_openapiOptions : OpenApiSpecsOptions) : PhatsAPI :=
  ⟨[.docs "get" "/openapi"]⟩

/-- Modelled from the spec: the openAPISpecs middleware that serves the
documentation endpoint belongs to the external hono-openapi library, not to
this repository; per the spec the endpoint returns the generated OpenAPI
document as JSON, which a JSON response carries with status 200. -/
def openApiSpecsHandle (generatedDocument : JsonValue) : HttpResponse :=
  ⟨200, generatedDocument⟩

/-- addMethod from the source: build the route configuration, compute the
compound request from the schema argument and the default location, default the
absent part schemas to z.object for the validator middlewares, and register the
route on the Hono instance. -/
def PhatsAPI.addMethod (api : PhatsAPI) (method : String) (path : String)
    (requestSchema : RequestSchemaArg) (responseShape : Shape)
    (description : String) (handler : Handler) (defaultSchemaLocation : SchemaLocation)
    (responseDescription : String) : PhatsAPI :=
  let routeConfig := createRouteConfig description responseDescription
  let compoundRequest := toCompound defaultSchemaLocation requestSchema
  ⟨api.routes ++ [.api ⟨method, path, routeConfig, compoundRequest,
    orEmptyObject compoundRequest.param, orEmptyObject compoundRequest.query,
    orEmptyObject compoundRequest.json, responseShape, handler⟩]⟩

/-- The public GET registration: addMethod with the query default location. -/
def PhatsAPI.get (api : PhatsAPI) (path : String) (requestSchema : RequestSchemaArg)
    (responseShape : Shape) (description : String) (handler : Handler)
    (responseDescription : String) : PhatsAPI :=
  api.addMethod "get" path requestSchema responseShape description handler .query responseDescription

/-- The public POST registration: addMethod with the json default location. -/
def PhatsAPI.post (api : PhatsAPI) (path : String) (requestSchema : RequestSchemaArg)
    (responseShape : Shape) (description : String) (handler : Handler)
    (responseDescription : String) : PhatsAPI :=
  api.addMethod "post" path requestSchema responseShape description handler .json responseDescription

/-- The public PUT registration: addMethod with the json default location. -/
def PhatsAPI.put (api : PhatsAPI) (path : String) (requestSchema : RequestSchemaArg)
    (responseShape : Shape) (description : String) (handler : Handler)
    (responseDescription : String) : PhatsAPI :=
  api.addMethod "put" path requestSchema responseShape description handler .json responseDescription

/-- The public DELETE registration: addMethod with the json default location. -/
def PhatsAPI.delete (api : PhatsAPI) (path : String) (requestSchema : RequestSchemaArg)
    (responseShape : Shape) (description : String) (handler : Handler)
    (responseDescription : String) : PhatsAPI :=
  api.addMethod "delete" path requestSchema responseShape description handler .json responseDescription

/-- Number of documentation endpoints among the registered routes. -/
def docsCount (routes : List RegisteredRoute) : Nat :=
  routes.countP fun rt =>
    match rt with
    | .docs _ _ => true
    | .api _ => false

/-- The describeRoute configuration of the POST method in the earlier variant
of the source, which documents only a 201 response. -/
def legacyPostRouteConfig (description : String) (responseDescription : String) : RouteConfig :=
  ⟨description, [(201, responseDescription)]⟩

/-- The final middleware of the earlier POST variant: it takes the validated
body, awaits the handler, and returns the response-schema-parsed result as
JSON with an explicit status 200, even though its documentation declares 201. -/
def legacyPostHandle (responseShape : Shape) (handler : Handler) (validBody : JsObj) : HandlerResult :=
  match handler validBody with
  | .throws => .uncaught .fromHandler
  | .ok v =>
    match parseValue responseShape v with
    | .ok fields => .response ⟨200, .obj fields⟩
    | .zodError is => .uncaught (.fromResponseParse is)
    | .thrown => .uncaught .fromResponseThrown


/-- Looking a key up after an assignment: the assigned key now maps to the new
value and every other key is unchanged. -/
theorem getK_setK {α : Type} (o : List (String × α)) (k : String) (v : α) (k' : String) :
    getK (setK o k v) k' = if k = k' then some v else getK o k' := by
  induction o with
  | nil => simp [setK, getK]
  | cons p rest ih =>
    rw [setK]
    by_cases h : p.fst = k
    · rw [if_pos h]
      by_cases h' : k = k'
      · simp [getK, h']
      · rw [getK, if_neg h', getK, if_neg (fun hc : p.fst = k' => h' (h ▸ hc)), if_neg h']
    · rw [if_neg h]
      by_cases h' : p.fst = k'
      · have hkk : ¬ k = k' := fun hc => h (hc ▸ h')
        rw [getK, if_pos h', if_neg hkk, getK, if_pos h']
      · rw [getK, if_neg h', ih, getK, if_neg h']

/-- A key that does not occur in an association list looks up to none. -/
theorem getK_eq_none_of_not_mem {α : Type} (o : List (String × α)) (k : String)
    (h : k ∉ o.map Prod.fst) : getK o k = none := by
  induction o with
  | nil => rfl
  | cons p rest ih =>
    simp only [List.map_cons, List.mem_cons] at h
    push_neg at h
    rw [getK, if_neg (Ne.symm h.1), ih h.2]

/-- Key membership after an assignment. -/
theorem mem_keys_setK {α : Type} (o : List (String × α)) (k : String) (v : α) (k' : String) :
    k' ∈ (setK o k v).map Prod.fst ↔ k' ∈ o.map Prod.fst ∨ k' = k := by
  induction o with
  | nil => simp [setK]
  | cons p rest ih =>
    rw [setK]
    by_cases h : p.fst = k
    · rw [if_pos h]
      simp only [List.map_cons, List.mem_cons]
      constructor
      · rintro (he | hm)
        · exact Or.inr he
        · exact Or.inl (Or.inr hm)
      · rintro ((he | hm) | he)
        · exact Or.inl (he.trans h)
        · exact Or.inr hm
        · exact Or.inl he
    · rw [if_neg h]
      simp only [List.map_cons, List.mem_cons, ih]
      tauto

/-- Assignment preserves uniqueness of keys. -/
theorem keys_nodup_setK {α : Type} (o : List (String × α)) (k : String) (v : α)
    (h : (o.map Prod.fst).Nodup) : ((setK o k v).map Prod.fst).Nodup := by
  induction o with
  | nil => simp [setK]
  | cons p rest ih =>
    simp only [List.map_cons, List.nodup_cons] at h
    rw [setK]
    by_cases hk : p.fst = k
    · rw [if_pos hk]
      simp only [List.map_cons, List.nodup_cons]
      exact ⟨hk ▸ h.1, h.2⟩
    · rw [if_neg hk]
      simp only [List.map_cons, List.nodup_cons]
      refine ⟨fun hmem => ?_, ih h.2⟩
      rcases (mem_keys_setK rest k v p.fst).mp hmem with hin | heq
      · exact h.1 hin
      · exact hk heq

/-- Spreading anything over an object with unique keys yields unique keys. -/
theorem keys_nodup_spreadK {α : Type} (b a : List (String × α))
    (h : (a.map Prod.fst).Nodup) : ((spreadK a b).map Prod.fst).Nodup := by
  induction b generalizing a with
  | nil => exact h
  | cons p b' ih => exact ih (setK a p.fst p.snd) (keys_nodup_setK a p.fst p.snd h)

/-- Lookup through a spread when the spread object has unique keys: an entry of
the second object wins, otherwise the first object answers. -/
theorem getK_spreadK {α : Type} (b a : List (String × α)) (k : String)
    (h : (b.map Prod.fst).Nodup) :
    getK (spreadK a b) k =
      match getK b k with
      | some v => some v
      | none => getK a k := by
  induction b generalizing a with
  | nil => simp [spreadK, getK]
  | cons p b' ih =>
    simp only [List.map_cons, List.nodup_cons] at h
    have hstep : spreadK a (p :: b') = spreadK (setK a p.fst p.snd) b' := rfl
    rw [hstep, ih (setK a p.fst p.snd) h.2]
    by_cases hk : p.fst = k
    · have hb' : getK b' k = none := getK_eq_none_of_not_mem b' k (hk ▸ h.1)
      rw [getK, if_pos hk, hb', getK_setK, if_pos hk]
    · rw [getK, if_neg hk]
      cases hv : getK b' k with
      | some v => rfl
      | none => rw [getK_setK, if_neg hk]

/-- A successful field parse returns exactly the value it was given. -/
theorem parseField_ok_eq :
    ∀ (f : FieldSchema) (mv mv' : Option JsonValue), parseField f mv = .ok mv' → mv' = mv := by
  intro f
  induction f with
  | str =>
    intro mv mv' h
    cases mv with
    | none => simp [parseField] at h
    | some v => cases v <;> simp_all [parseField]
  | num =>
    intro mv mv' h
    cases mv with
    | none => simp [parseField] at h
    | some v => cases v <;> simp_all [parseField]
  | bool =>
    intro mv mv' h
    cases mv with
    | none => simp [parseField] at h
    | some v => cases v <;> simp_all [parseField]
  | optional inner ih =>
    intro mv mv' h
    cases mv with
    | none =>
      simp only [parseField, FieldOutcome.ok.injEq] at h
      simp [h]
    | some v => exact ih (some v) mv' h
  | refineThrow inner ih =>
    intro mv mv' h
    simp only [parseField] at h
    cases hres : parseField inner mv <;> rw [hres] at h <;> simp at h

/-- Keys outside the shape never occur in a successfully parsed object. -/
theorem parseFields_ok_not_mem :
    ∀ (sh : Shape) (input out : JsObj), parseFields sh input = .ok out →
      ∀ k, k ∉ sh.map Prod.fst → getK out k = none := by
  intro sh
  induction sh with
  | nil =>
    intro input out h k _
    simp only [parseFields, ParseOutcome.ok.injEq] at h
    rw [← h]
    rfl
  | cons p rest ih =>
    intro input out h k hk
    simp only [List.map_cons, List.mem_cons] at hk
    push_neg at hk
    rw [parseFields] at h
    cases h1 : parseField p.snd (getK input p.fst) <;> rw [h1] at h
    case thrown => exact absurd h (by simp)
    case issues is1 =>
      cases h2 : parseFields rest input <;> rw [h2] at h <;> simp at h
    case ok mv =>
      cases h2 : parseFields rest input <;> rw [h2] at h
      case thrown => exact absurd h (by simp)
      case zodError => exact absurd h (by simp)
      case ok fs =>
        simp only [ParseOutcome.ok.injEq] at h
        rw [← h]
        cases mv with
        | none => exact ih input fs h2 k hk.2
        | some v =>
          rw [getK, if_neg (fun hc : p.fst = k => hk.1 hc.symm)]
          exact ih input fs h2 k hk.2

/-- Parsing a shape only looks at the keys of the shape. -/
theorem parseFields_congr :
    ∀ (sh : Shape) (i1 i2 : JsObj),
      (∀ k, k ∈ sh.map Prod.fst → getK i1 k = getK i2 k) →
      parseFields sh i1 = parseFields sh i2 := by
  intro sh
  induction sh with
  | nil => intro i1 i2 _; rfl
  | cons p rest ih =>
    intro i1 i2 hagree
    have hhead : getK i1 p.fst = getK i2 p.fst := hagree p.fst (by simp)
    have hrest : parseFields rest i1 = parseFields rest i2 :=
      ih i1 i2 (fun k hk => hagree k (by simp [hk]))
    rw [parseFields, parseFields, hhead, hrest]

/-- Parsing a successfully parsed object again succeeds with the same object,
provided the shape has unique keys: the validated output still satisfies the
schema it was validated against. -/
theorem parseFields_self :
    ∀ (sh : Shape) (input out : JsObj), (sh.map Prod.fst).Nodup →
      parseFields sh input = .ok out → parseFields sh out = .ok out := by
  intro sh
  induction sh with
  | nil =>
    intro input out _ h
    simp only [parseFields, ParseOutcome.ok.injEq] at h
    rw [← h]
    rfl
  | cons p rest ih =>
    intro input out hnd h
    simp only [List.map_cons, List.nodup_cons] at hnd
    rw [parseFields] at h
    cases h1 : parseField p.snd (getK input p.fst) <;> rw [h1] at h
    case thrown => exact absurd h (by simp)
    case issues is1 =>
      cases h2 : parseFields rest input <;> rw [h2] at h <;> simp at h
    case ok mv =>
      cases h2 : parseFields rest input <;> rw [h2] at h
      case thrown => exact absurd h (by simp)
      case zodError => exact absurd h (by simp)
      case ok fs =>
        simp only [ParseOutcome.ok.injEq] at h
        have hmv : mv = getK input p.fst := parseField_ok_eq p.snd (getK input p.fst) mv h1
        have hout : getK out p.fst = mv := by
          rw [← h]
          cases mv with
          | some v => rw [getK, if_pos rfl]
          | none => exact parseFields_ok_not_mem rest input fs h2 p.fst hnd.1
        have hrest_out : parseFields rest out = parseFields rest fs := by
          apply parseFields_congr
          intro k hk
          have hne : ¬ p.fst = k := fun hc => hnd.1 (hc ▸ hk)
          rw [← h]
          cases mv with
          | some v => rw [getK, if_neg hne]
          | none => rfl
        have h1s : parseField p.snd mv = FieldOutcome.ok mv := by
          conv_lhs => rw [hmv]
          exact h1
        rw [parseFields, hout, h1s, hrest_out, ih input fs hnd.2 h2, ← h]

/-- The merged schema always has unique field names, whatever the parts are:
it is built by spreading the three shapes into an empty object. -/
theorem mergeSchemas_keys_nodup (r : CompoundRequest) :
    ((mergeSchemas r).map Prod.fst).Nodup := by
  apply keys_nodup_spreadK
  apply keys_nodup_spreadK
  apply keys_nodup_spreadK
  simp

/-- A sample split request schema declaring one required string query field. -/
def sampleRequestSchema : CompoundRequest :=
  ⟨none, some (.object [("name", FieldSchema.str)]), none⟩

/-- A sample response shape declaring one required numeric field. -/
def sampleResponseShape : Shape := [("id", FieldSchema.num)]

/-- A sample handler returning a value that satisfies sampleResponseShape. -/
def sampleHandler : Handler := fun _ => .ok (.obj [("id", .num 1)])

/-- A sample registered route over the sample schemas. -/
def sampleRoute : Route :=
  ⟨"get", "/users", createRouteConfig "Gets users" "Successful response",
    sampleRequestSchema, orEmptyObject sampleRequestSchema.param,
    orEmptyObject sampleRequestSchema.query, orEmptyObject sampleRequestSchema.json,
    sampleResponseShape, sampleHandler⟩

/-- The sample route with a handler that raises an exception. -/
def throwRoute : Route :=
  ⟨"get", "/users", createRouteConfig "Gets users" "Successful response",
    sampleRequestSchema, orEmptyObject sampleRequestSchema.param,
    orEmptyObject sampleRequestSchema.query, orEmptyObject sampleRequestSchema.json,
    sampleResponseShape, fun _ => .throws⟩

/-- The sample route with a handler whose result violates the response schema. -/
def badResponseRoute : Route :=
  ⟨"get", "/users", createRouteConfig "Gets users" "Successful response",
    sampleRequestSchema, orEmptyObject sampleRequestSchema.param,
    orEmptyObject sampleRequestSchema.query, orEmptyObject sampleRequestSchema.json,
    sampleResponseShape, fun _ => .ok (.obj [])⟩

/-- A route whose query schema carries a refinement that raises a non-Zod
exception during validation. -/
def refineRoute : Route :=
  ⟨"get", "/users", createRouteConfig "Gets users" "Successful response",
    ⟨none, some (.object [("x", FieldSchema.refineThrow .str)]), none⟩,
    orEmptyObject none, .object [("x", FieldSchema.refineThrow .str)], orEmptyObject none,
    sampleResponseShape, sampleHandler⟩

/-- A request with no parameters, no query and no body. -/
def emptyReq : HonoRequest := ⟨[], [], none⟩

/-- A request carrying the query parameter the sample schema requires. -/
def nameReq : HonoRequest := ⟨[], [("name", "Jane")], none⟩

/-- A request carrying the query parameter the refining schema validates. -/
def xReq : HonoRequest := ⟨[], [("x", "a")], none⟩

/-- C1: for every registered route and incoming request, when validating the
merged request input against the merged request schema fails with a Zod
validation error, the route handler pipeline responds with status 400 and the
JSON body of shape with an errors list whose field is the path of each issue
joined with a dot and whose message is the message of the issue. -/
theorem c1_zod_failure_maps_to_400 (rt : Route) (c : HonoRequest) (is : List ZodIssue)
    (h : parseFields (mergeSchemas rt.request) (mergedInput c) = .zodError is) :
    rt.handle c = .response ⟨400, .obj [("errors", .arr (is.map fun i =>
      .obj [("field", .str (String.intercalate "." i.path)),
            ("message", .str i.message)]))]⟩ := by
  unfold Route.handle handleRequest
  rw [h]
  rfl

/-- Witness for C1: the sample route rejects a request with a missing required
query field with a 400 response listing the field and the message. -/
theorem c1_witness :
    parseFields (mergeSchemas sampleRoute.request) (mergedInput emptyReq) =
      .zodError [⟨["name"], "Required"⟩]
    ∧ sampleRoute.handle emptyReq = .response ⟨400, .obj [("errors", .arr
        (([⟨["name"], "Required"⟩] : List ZodIssue).map fun i =>
          .obj [("field", .str (String.intercalate "." i.path)),
                ("message", .str i.message)]))]⟩ :=
  ⟨rfl, c1_zod_failure_maps_to_400 sampleRoute emptyReq [⟨["name"], "Required"⟩] rfl⟩

/-- Counterexample for C2: an exception raised by the user handler is not
reported by the wrapper as any response at all, in particular not as a 500 with
the generic JSON body; it propagates uncaught, because the handler call sits
outside the try block of handleRequest. -/
theorem c2_counterexample :
    throwRoute.handle nameReq = .uncaught .fromHandler
    ∧ isResponse (throwRoute.handle nameReq) = false :=
  ⟨rfl, rfl⟩

/-- C2 as amended: a non-Zod exception raised while validating the merged
request input is reported as a 500 response with the generic JSON body, but an
exception thrown by the user handler, and a handler result that fails the
response schema, are not caught by the wrapper and propagate uncaught. -/
theorem c2_amended_error_mapping (rt : Route) (c : HonoRequest) :
    (parseFields (mergeSchemas rt.request) (mergedInput c) = .thrown →
      rt.handle c = .response ⟨500, .obj [("error", .str "Internal Server Error")]⟩)
    ∧ (∀ r, parseFields (mergeSchemas rt.request) (mergedInput c) = .ok r →
        rt.handler r = .throws → rt.handle c = .uncaught .fromHandler)
    ∧ (∀ r v is, parseFields (mergeSchemas rt.request) (mergedInput c) = .ok r →
        rt.handler r = .ok v → parseValue rt.responseShape v = .zodError is →
        rt.handle c = .uncaught (.fromResponseParse is))
    ∧ (∀ r v, parseFields (mergeSchemas rt.request) (mergedInput c) = .ok r →
        rt.handler r = .ok v → parseValue rt.responseShape v = .thrown →
        rt.handle c = .uncaught .fromResponseThrown) := by
  refine ⟨?_, ?_, ?_, ?_⟩
  · intro h
    unfold Route.handle handleRequest
    rw [h]
    rfl
  · intro r hp hh
    unfold Route.handle handleRequest respond
    simp only [hp, hh]
  · intro r v is hp hh hv
    unfold Route.handle handleRequest respond
    simp only [hp, hh, hv]
  · intro r v hp hh hv
    unfold Route.handle handleRequest respond
    simp only [hp, hh, hv]

/-- Witness for C2 as amended: a schema refinement that raises a non-Zod
exception during request validation yields the generic 500 JSON response. -/
theorem c2_amended_witness :
    refineRoute.handle xReq = .response ⟨500, .obj [("error", .str "Internal Server Error")]⟩ :=
  (c2_amended_error_mapping refineRoute xReq).1 rfl

/-- C3: for a route with split schemas, the wrapper builds the one merged
schema with mergeSchemas, and when validating the object merged from path
parameters, query parameters and JSON body against it succeeds, the pipeline
continues with exactly that validated object, which respond passes to the
user handler. -/
theorem c3_handler_gets_merged_validated (rt : Route) (c : HonoRequest) (r : JsObj)
    (h : parseFields (mergeSchemas rt.request) (mergedInput c) = .ok r) :
    rt.handle c = respond rt.responseShape rt.handler r := by
  unfold Route.handle handleRequest
  rw [h]

/-- Witness for C3: the sample route passes the validated merged object,
holding the query field, to the continuation around its handler. -/
theorem c3_witness :
    parseFields (mergeSchemas sampleRoute.request) (mergedInput nameReq) =
      .ok [("name", .str "Jane")]
    ∧ sampleRoute.handle nameReq =
        respond sampleRoute.responseShape sampleRoute.handler [("name", .str "Jane")] :=
  ⟨rfl, c3_handler_gets_merged_validated sampleRoute nameReq [("name", .str "Jane")] rfl⟩

/-- C4: whenever the user handler of a registered route is invoked, its
argument satisfies the merged request schema of the route, and when validation
does not succeed the outcome is the same for every handler, so a handler is
never called with an input that failed validation. -/
theorem c4_handler_input_validated (rt : Route) (c : HonoRequest) :
    (∀ r, parseFields (mergeSchemas rt.request) (mergedInput c) = .ok r →
      parseFields (mergeSchemas rt.request) r = .ok r)
    ∧ (∀ h1 h2 : Handler,
        (∀ r, parseFields (mergeSchemas rt.request) (mergedInput c) ≠ .ok r) →
        handleRequest c rt.request rt.responseShape h1 =
          handleRequest c rt.request rt.responseShape h2) := by
  constructor
  · intro r h
    exact parseFields_self (mergeSchemas rt.request) (mergedInput c) r
      (mergeSchemas_keys_nodup rt.request) h
  · intro h1 h2 hne
    unfold handleRequest
    cases hp : parseFields (mergeSchemas rt.request) (mergedInput c) with
    | ok r => exact absurd hp (hne r)
    | zodError is => rfl
    | thrown => rfl

/-- Witness for C4: the validated merged object of the sample request itself
satisfies the merged schema of the sample route. -/
theorem c4_witness :
    parseFields (mergeSchemas sampleRoute.request) [("name", .str "Jane")] =
      .ok [("name", .str "Jane")] :=
  (c4_handler_input_validated sampleRoute nameReq).1 [("name", .str "Jane")] rfl

/-- C5: a route-registration call exists for each of GET, PUT, POST and
DELETE; each delegates to addMethod with the default schema location of its
verb, so a single schema registers at the query location for GET and at the
JSON-body location for POST, PUT and DELETE, while split schemas pass through
unchanged; and addMethod records the path, the documentation configuration
built from the description and response description, the response schema and
the handler on the registered route. -/
theorem c5_verb_registration :
    (∀ (api : PhatsAPI) (path : String) (rs : RequestSchemaArg) (sh : Shape)
        (d : String) (h : Handler) (rd : String),
      api.get path rs sh d h rd = api.addMethod "get" path rs sh d h .query rd
      ∧ api.post path rs sh d h rd = api.addMethod "post" path rs sh d h .json rd
      ∧ api.put path rs sh d h rd = api.addMethod "put" path rs sh d h .json rd
      ∧ api.delete path rs sh d h rd = api.addMethod "delete" path rs sh d h .json rd)
    ∧ (∀ s : ZodSchema,
        toCompound .query (.single s) = ⟨none, some s, none⟩
        ∧ toCompound .json (.single s) = ⟨none, none, some s⟩)
    ∧ (∀ (loc : SchemaLocation) (cr : CompoundRequest), toCompound loc (.compound cr) = cr)
    ∧ (∀ (api : PhatsAPI) (m path : String) (rs : RequestSchemaArg) (sh : Shape)
        (d : String) (h : Handler) (loc : SchemaLocation) (rd : String),
        (api.addMethod m path rs sh d h loc rd).routes =
          api.routes ++ [.api ⟨m, path, createRouteConfig d rd, toCompound loc rs,
            orEmptyObject (toCompound loc rs).param, orEmptyObject (toCompound loc rs).query,
            orEmptyObject (toCompound loc rs).json, sh, h⟩]) := by
  refine ⟨fun _ _ _ _ _ _ _ => ⟨rfl, rfl, rfl, rfl⟩,
    fun _ => ⟨rfl, rfl⟩, fun _ _ => rfl, fun _ _ _ _ _ _ _ _ _ => rfl⟩

/-- C6: constructing a PhatsAPI registers exactly one documentation endpoint,
at GET /openapi; the endpoint answers with the generated OpenAPI document as
JSON with status 200; and registering API routes never adds another
documentation endpoint. -/
theorem c6_openapi_endpoint :
    (∀ opts : OpenApiSpecsOptions,
      (PhatsAPI.make opts).routes = [.docs "get" "/openapi"]
      ∧ docsCount (PhatsAPI.make opts).routes = 1)
    ∧ (∀ doc : JsonValue, openApiSpecsHandle doc = ⟨200, doc⟩)
    ∧ (∀ (api : PhatsAPI) (m path : String) (rs : RequestSchemaArg) (sh : Shape)
        (d : String) (h : Handler) (loc : SchemaLocation) (rd : String),
        docsCount ((api.addMethod m path rs sh d h loc rd).routes) = docsCount api.routes) := by
  refine ⟨fun _ => ⟨rfl, rfl⟩, fun _ => rfl, ?_⟩
  intro api m path rs sh d h loc rd
  unfold docsCount PhatsAPI.addMethod
  rw [List.countP_append]
  simp

/-- Counterexample for C7: a route whose handler result violates the response
schema ends with an uncaught exception rather than any of the three responses,
because responseSchema.parse sits outside the try block; so the handling of a
request can have an outcome outside the three-case mapping. -/
theorem c7_counterexample :
    badResponseRoute.handle nameReq = .uncaught (.fromResponseParse [⟨["id"], "Required"⟩])
    ∧ isResponse (badResponseRoute.handle nameReq) = false :=
  ⟨rfl, rfl⟩

/-- C7 as amended: every response the route handler pipeline itself emits is a
200 whose body is the parsed handler result, a 400 with the validation-error
list, or the generic 500; but a request can also end with no response from the
wrapper at all, with the exception of the handler or of the response parse
propagating uncaught. -/
theorem c7_amended_taxonomy (rt : Route) (c : HonoRequest) (resp : HttpResponse)
    (h : rt.handle c = .response resp) :
    (∃ fields : JsObj, resp = ⟨200, .obj fields⟩)
    ∨ (∃ is : List ZodIssue, resp = ⟨400, .obj [("errors", .arr (is.map fun i =>
        .obj [("field", .str (String.intercalate "." i.path)),
              ("message", .str i.message)]))]⟩)
    ∨ resp = ⟨500, .obj [("error", .str "Internal Server Error")]⟩ := by
  cases hp : parseFields (mergeSchemas rt.request) (mergedInput c) with
  | zodError is =>
    have he : rt.handle c = .response (handleZodError is) := by
      unfold Route.handle handleRequest
      rw [hp]
    rw [he] at h
    injection h with h2
    exact Or.inr (Or.inl ⟨is, by rw [← h2]; rfl⟩)
  | thrown =>
    have he : rt.handle c = .response internalServerError := by
      unfold Route.handle handleRequest
      rw [hp]
    rw [he] at h
    injection h with h2
    exact Or.inr (Or.inr (by rw [← h2]; rfl))
  | ok r =>
    have he : rt.handle c = respond rt.responseShape rt.handler r := by
      unfold Route.handle handleRequest
      rw [hp]
    rw [he] at h
    unfold respond at h
    cases hh : rt.handler r <;> simp only [hh] at h
    case throws => simp at h
    case ok v =>
      cases hv : parseValue rt.responseShape v <;> simp only [hv] at h
      case zodError => simp at h
      case thrown => simp at h
      case ok fields =>
        injection h with h2
        exact Or.inl ⟨fields, h2.symm⟩

/-- Witness for C7 as amended: the successful sample request produces the 200
response with the parsed handler result. -/
theorem c7_amended_witness :
    (∃ fields : JsObj, (⟨200, .obj [("id", .num 1)]⟩ : HttpResponse) = ⟨200, .obj fields⟩)
    ∨ (∃ is : List ZodIssue, (⟨200, .obj [("id", .num 1)]⟩ : HttpResponse) =
        ⟨400, .obj [("errors", .arr (is.map fun i =>
          .obj [("field", .str (String.intercalate "." i.path)),
                ("message", .str i.message)]))]⟩)
    ∨ (⟨200, .obj [("id", .num 1)]⟩ : HttpResponse) =
        ⟨500, .obj [("error", .str "Internal Server Error")]⟩ :=
  c7_amended_taxonomy sampleRoute nameReq ⟨200, .obj [("id", .num 1)]⟩ rfl

/-- C8: a request whose body is absent or unparseable as JSON is handled
exactly as one whose body is the empty object, because the JSON parse failure
is swallowed; and such a request is answered with a 500 only when the merged
input raises a non-Zod exception in a schema refinement, never because of the
body alone. -/
theorem c8_malformed_body_as_empty_object (rt : Route) (p q : List (String × String)) :
    rt.handle ⟨p, q, none⟩ = rt.handle ⟨p, q, some (.obj [])⟩
    ∧ (∀ resp : HttpResponse, rt.handle ⟨p, q, none⟩ = .response resp → resp.status = 500 →
        parseFields (mergeSchemas rt.request) (mergedInput ⟨p, q, none⟩) = .thrown) := by
  constructor
  · rfl
  · intro resp h hs
    cases hp : parseFields (mergeSchemas rt.request) (mergedInput ⟨p, q, none⟩) with
    | thrown => rfl
    | zodError is =>
      have he : rt.handle ⟨p, q, none⟩ = .response (handleZodError is) := by
        unfold Route.handle handleRequest
        rw [hp]
      rw [he] at h
      injection h with h2
      rw [← h2] at hs
      simp [handleZodError] at hs
    | ok r =>
      have he : rt.handle ⟨p, q, none⟩ = respond rt.responseShape rt.handler r := by
        unfold Route.handle handleRequest
        rw [hp]
      rw [he] at h
      unfold respond at h
      cases hh : rt.handler r <;> simp only [hh] at h
      case throws => simp at h
      case ok v =>
        cases hv : parseValue rt.responseShape v <;> simp only [hv] at h
        case zodError => simp at h
        case thrown => simp at h
        case ok fields =>
          injection h with h2
          rw [← h2] at hs
          simp at hs

/-- Witness for C8: with a body that failed to parse, the refining route
behaves exactly as with an empty-object body, and its 500 response comes from
the refinement exception raised during validation. -/
theorem c8_witness :
    refineRoute.handle ⟨[], [("x", "a")], none⟩ =
      refineRoute.handle ⟨[], [("x", "a")], some (.obj [])⟩
    ∧ parseFields (mergeSchemas refineRoute.request) (mergedInput ⟨[], [("x", "a")], none⟩) =
        .thrown :=
  ⟨(c8_malformed_body_as_empty_object refineRoute [] [("x", "a")]).1,
    (c8_malformed_body_as_empty_object refineRoute [] [("x", "a")]).2
      internalServerError rfl rfl⟩

/-- Injecting string records into JSON objects keeps the keys. -/
theorem strEntries_keys (l : List (String × String)) :
    (strEntries l).map Prod.fst = l.map Prod.fst := by
  induction l with
  | nil => rfl
  | cons p rest ih => simp [strEntries, ih]

/-- Lookup in an injected string record. -/
theorem getK_strEntries (l : List (String × String)) (k : String) :
    getK (strEntries l) k = (getK l k).map JsonValue.str := by
  induction l with
  | nil => rfl
  | cons p rest ih =>
    by_cases h : p.fst = k
    · simp [strEntries, getK, h]
    · simp only [strEntries] at ih ⊢
      simp [getK, h, ih]

/-- C9: when the same key occurs in several sources, the JSON body wins over
the query parameters, which win over the path parameters, both for the values
of the merged request input and for the field definitions of the merged
schema: in each case the later spread overrides the earlier one. -/
theorem c9_later_source_wins :
    (∀ (p q : List (String × String)) (jf : JsObj) (k : String),
      (p.map Prod.fst).Nodup → (q.map Prod.fst).Nodup → (jf.map Prod.fst).Nodup →
      getK (mergedInput ⟨p, q, some (.obj jf)⟩) k =
        match getK jf k with
        | some v => some v
        | none =>
          match getK q k with
          | some s => some (.str s)
          | none =>
            match getK p k with
            | some s => some (.str s)
            | none => none)
    ∧ (∀ (ps qs js : Shape) (k : String),
      (ps.map Prod.fst).Nodup → (qs.map Prod.fst).Nodup → (js.map Prod.fst).Nodup →
      getK (mergeSchemas ⟨some (.object ps), some (.object qs), some (.object js)⟩) k =
        match getK js k with
        | some f => some f
        | none =>
          match getK qs k with
          | some f => some f
          | none => getK ps k) := by
  constructor
  · intro p q jf k hp hq hj
    show getK (spreadK (spreadK (spreadK [] (strEntries p)) (strEntries q)) jf) k = _
    rw [getK_spreadK jf _ k hj]
    cases getK jf k with
    | some v => rfl
    | none =>
      rw [getK_spreadK (strEntries q) _ k (by rw [strEntries_keys]; exact hq),
        getK_strEntries]
      cases getK q k with
      | some s => rfl
      | none =>
        rw [getK_spreadK (strEntries p) _ k (by rw [strEntries_keys]; exact hp),
          getK_strEntries]
        cases getK p k with
        | some s => rfl
        | none => rfl
  · intro ps qs js k hp hq hj
    show getK (spreadK (spreadK (spreadK [] ps) qs) js) k = _
    rw [getK_spreadK js _ k hj]
    cases getK js k with
    | some f => rfl
    | none =>
      rw [getK_spreadK qs _ k hq]
      cases getK qs k with
      | some f => rfl
      | none =>
        rw [getK_spreadK ps _ k hp]
        cases getK ps k with
        | some f => rfl
        | none => rfl

/-- Witness for C9: with the key present in all three sources, the merged
input takes the JSON-body value and the merged schema takes the JSON-body
field definition. -/
theorem c9_witness :
    getK (mergedInput ⟨[("k", "pv")], [("k", "qv")], some (.obj [("k", .num 3)])⟩) "k" =
      some (.num 3)
    ∧ getK (mergeSchemas ⟨some (.object [("k", FieldSchema.str)]),
        some (.object [("k", FieldSchema.bool)]),
        some (.object [("k", FieldSchema.num)])⟩) "k" = some FieldSchema.num :=
  ⟨c9_later_source_wins.1 [("k", "pv")] [("k", "qv")] [("k", .num 3)] "k"
      (by decide) (by decide) (by decide),
    c9_later_source_wins.2 [("k", FieldSchema.str)] [("k", FieldSchema.bool)]
      [("k", FieldSchema.num)] "k" (by decide) (by decide) (by decide)⟩

/-- C10: a successful request, one whose merged input validates and whose
handler result satisfies the response schema, is answered with status 200 and
the response-schema-parsed handler result as the JSON body; the earlier POST
variant also answers 200, with the same success path, even though its
describeRoute configuration documents a 201 response. -/
theorem c10_success_returns_200 :
    (∀ (rt : Route) (c : HonoRequest) (r : JsObj) (v : JsonValue) (fields : JsObj),
      parseFields (mergeSchemas rt.request) (mergedInput c) = .ok r →
      rt.handler r = .ok v →
      parseValue rt.responseShape v = .ok fields →
      rt.handle c = .response ⟨200, .obj fields⟩)
    ∧ (∀ (sh : Shape) (h : Handler) (body : JsObj) (v : JsonValue) (fields : JsObj),
      h body = .ok v → parseValue sh v = .ok fields →
      legacyPostHandle sh h body = .response ⟨200, .obj fields⟩)
    ∧ (∀ d rd : String, (legacyPostRouteConfig d rd).responses = [(201, rd)]) := by
  refine ⟨?_, ?_, fun _ _ => rfl⟩
  · intro rt c r v fields hp hh hv
    unfold Route.handle handleRequest respond
    simp only [hp, hh, hv]
  · intro sh h body v fields hh hv
    unfold legacyPostHandle
    simp only [hh, hv]

/-- Witness for C10: the successful sample request is answered with 200 and
the parsed handler result, through the current pipeline and through the
earlier POST variant, whose configuration documents 201. -/
theorem c10_witness :
    sampleRoute.handle nameReq = .response ⟨200, .obj [("id", .num 1)]⟩
    ∧ legacyPostHandle sampleResponseShape sampleHandler [("name", .str "Jane")] =
        .response ⟨200, .obj [("id", .num 1)]⟩
    ∧ (legacyPostRouteConfig "Creates a user" "Created").responses = [(201, "Created")] :=
  ⟨c10_success_returns_200.1 sampleRoute nameReq [("name", .str "Jane")]
      (.obj [("id", .num 1)]) [("id", .num 1)] rfl rfl rfl,
    c10_success_returns_200.2.1 sampleResponseShape sampleHandler [("name", .str "Jane")]
      (.obj [("id", .num 1)]) [("id", .num 1)] rfl rfl,
    c10_success_returns_200.2.2 "Creates a user" "Created"⟩
